import Mathlib

/-!
Verification development for the `go.innotegrity.dev/slogx-fluentbit` log
handler (`handler.go`).  The Go code is shallowly embedded: structs become
Lean structures, value-receiver methods become pure functions, the
pointer-receiver `Handle` returns the updated handler explicitly, and Go's
`error` results become `Option GoError` (`none` = nil error).  The external
collaborators (formatter, HTTP transport, the `slogx` consolidation helper)
are modelled behaviourally as the spec describes them.
-/

namespace SlogxFluentBit

/-- Scalar payload of a `slog.Attr` value (the model needs only a few
representative scalar kinds; groups are a separate `Attr` constructor). -/
inductive AttrValue where
  | str (s : String)
  | int (n : Int)
  | bool (b : Bool)
  deriving Repr, DecidableEq

/-- Model of `slog.Attr`: a key with either a scalar value or a nested group
of attributes (`slog.Group(name, as...)` is `Attr.group name as`). -/
inductive Attr where
  | scalar (key : String) (value : AttrValue)
  | group (key : String) (items : List Attr)
  deriving Repr

/-- The key of an attribute. -/
def Attr.key : Attr → String
  | .scalar k _ => k
  | .group k _ => k

/-- Modelled from the spec: the recursive de-duplication pass of
`slogx.ConsolidateAttrs` (the `slogx` module is an external dependency, not
in this repository).  Duplicate keys at each nesting level are resolved by
keeping the last occurrence in a left-to-right, outer-to-inner traversal;
surviving group entries are consolidated recursively. -/
def consolidate : List Attr → List Attr
  | [] => []
  | .scalar k v :: rest =>
    if rest.any fun b => b.key = k then consolidate rest
    else .scalar k v :: consolidate rest
  | .group k items :: rest =>
    if rest.any fun b => b.key = k then consolidate rest
    else .group k (consolidate items) :: consolidate rest
  termination_by l => sizeOf l
  decreasing_by all_goals simp_wf <;> omega

/-- Consolidation of a single attribute: scalars are unchanged, a group's
items are consolidated recursively. -/
def consolidateTop : Attr → Attr
  | .scalar k v => .scalar k v
  | .group k items => .group k (consolidate items)

/-- First attribute with the given key (lookup in a consolidated tree). -/
def attrFind (k : String) (l : List Attr) : Option Attr :=
  l.find? fun a => a.key = k

/-- Last occurrence of the given key in an attribute sequence. -/
def attrFindLast (k : String) (l : List Attr) : Option Attr :=
  l.reverse.find? fun a => a.key = k

/-- Model of a Go `error` value.  `msg` covers `errors.New` / `fmt.Errorf`
messages as well as arbitrary collaborator errors; `nilPointer` is a
distinguished value standing for the runtime panic a nil collaborator
dereference would raise in Go. -/
inductive GoError where
  | msg (s : String)
  | nilPointer (what : String)
  deriving Repr, DecidableEq

/-- The single HTTP request the emission pipeline issues:
`POST url` with the configured content-type header and the formatted body. -/
structure PostRequest where
  url : String
  contentType : String
  body : String
  deriving Repr, DecidableEq

/-- Outcome of one `POST`: either a transport-level error (non-nil `err`
from resty) or an HTTP response carrying a status code. -/
inductive PostOutcome where
  | transportErr (e : GoError)
  | response (statusCode : Nat)
  deriving Repr, DecidableEq

/-- Model of `*resty.Client` (spec §6: the transport is an external
collaborator consumed through a narrow contract).  A client is modelled by
the outcome its `POST` produces for a given request. -/
structure HTTPClient where
  post : PostRequest → PostOutcome

/-- Modelled from the spec: `resty.New()` — "a default HTTP client
instance".  Its real network behaviour is external to this repository; the
model fixes a nominal always-succeeding outcome. -/
def restyNew : HTTPClient :=
  ⟨fun _ => .response 200⟩

/-- Model of `slog.Record`: timestamp, numeric level, program counter,
message and the record's own attribute sequence. -/
structure Record where
  time : Nat
  level : Int
  pc : Nat
  message : String
  attrs : List Attr

/-- Model of `formatter.BufferFormatter` (spec §6): turns
(context, time, level, caller info, message, attributes) into a byte
buffer or fails.  The buffer is modelled as a `String`. -/
structure BufferFormatter where
  formatRecord : Nat → Int → Nat → String → List Attr → Except GoError String

/-- Rendering of one attribute scalar value as JSON-ish text (used only by
the modelled default formatter). -/
def AttrValue.render : AttrValue → String
  | .str s => "\x22" ++ s ++ "\x22"
  | .int n => toString n
  | .bool b => toString b

/-- Rendering of an attribute list as a JSON-ish object body (used only by
the modelled default formatter). -/
def renderAttrs : List Attr → String
  | [] => ""
  | .scalar k v :: rest =>
    "\x22" ++ k ++ "\x22:" ++ v.render ++ ";" ++ renderAttrs rest
  | .group k items :: rest =>
    "\x22" ++ k ++ "\x22:" ++ "\x7b" ++ renderAttrs items ++ "\x7d" ++ ";" ++ renderAttrs rest
  termination_by l => sizeOf l
  decreasing_by all_goals simp_wf <;> omega

/-- Modelled from the spec: `formatter.DefaultJSONFormatter()` — "a default
structured-JSON formatter" (the formatter body is out of scope, spec §1);
the model renders the inputs into a self-contained buffer and never
fails. -/
def DefaultJSONFormatter : BufferFormatter :=
  ⟨fun time level _pc message attrs =>
    .ok ("\x7btime:" ++ toString time ++ ",level:" ++ toString level ++
      ",msg:\x22" ++ message ++ "\x22," ++ renderAttrs attrs ++ "\x7d")⟩

/-- Model of `slog.LevelInfo`. -/
def LevelInfo : Int := 0

/-- Model of `FluentBitHandlerOptions`.  Nil-able Go fields (`HTTPClient`,
`Level`, `RecordFormatter`) become `Option`; `slog.Leveler` is modelled by
the numeric level its `Level()` method returns. -/
structure FluentBitHandlerOptions where
  ContentType : String
  EnableAsync : Bool
  HTTPClient : Option HTTPClient
  Level : Option Int
  RecordFormatter : Option BufferFormatter
  URL : String

/-- Model of `DefaultFluentBitHandlerOptions` (zero values for the fields
the Go function does not set). -/
def DefaultFluentBitHandlerOptions : FluentBitHandlerOptions :=
  { ContentType := "application/json"
    EnableAsync := false
    HTTPClient := some restyNew
    Level := some LevelInfo
    RecordFormatter := some DefaultJSONFormatter
    URL := "" }

/-- Model of `context.Context`, restricted to the single key this package
uses (`fluentBitHandlerOptionsContext`). -/
structure Context where
  fluentBitOptions : Option FluentBitHandlerOptions

/-- Model of `FluentBitHandlerOptions.AddToContext`. -/
def FluentBitHandlerOptions.AddToContext (o : FluentBitHandlerOptions) (_ctx : Context) : Context :=
  { fluentBitOptions := some o }

/-- Model of `GetFluentBitHandlerOptionsFromContext`: the options stored in
the context, or a default set if none are present. -/
def GetFluentBitHandlerOptionsFromContext (ctx : Context) : FluentBitHandlerOptions :=
  match ctx.fluentBitOptions with
  | some opts => opts
  | none => DefaultFluentBitHandlerOptions

/-- Model of `async.Future`: a handle to one scheduled background run of
the emission pipeline, carrying the result `Await` will yield. -/
structure Future where
  result : Option GoError

/-- Model of the `fluentBitHandler` struct.  `futures` holds nil-able
future handles (`Shutdown` checks each for nil before awaiting). -/
structure FluentBitHandler where
  activeGroup : String
  attrs : List Attr
  futures : List (Option Future)
  groups : List String
  options : FluentBitHandlerOptions

/-- Model of `NewFluentBitHandler` (handler.go:92-116): fails when `URL` is
empty, otherwise backfills the `ContentType`, `HTTPClient` and `Level`
defaults and returns a fresh handler holding the (possibly updated)
options. -/
def NewFluentBitHandler (opts : FluentBitHandlerOptions) : Except GoError FluentBitHandler :=
  if opts.URL = "" then
    .error (.msg "URL is required and cannot be empty")
  else
    let opts := if opts.ContentType = "" then { opts with ContentType := "application/json" } else opts
    let opts := match opts.HTTPClient with
      | none => { opts with HTTPClient := some restyNew }
      | some _ => opts
    let opts := match opts.Level with
      | none => { opts with Level := some LevelInfo }
      | some _ => opts
    .ok { activeGroup := ""
          attrs := []
          futures := []
          groups := []
          options := opts }

/-- Model of `Enabled` (handler.go:119-121): `level >= h.options.Level.Level()`.
Calling `Level()` on a nil `slog.Leveler` would panic in Go; that case is
modelled as `none`. -/
def FluentBitHandler.Enabled (h : FluentBitHandler) (level : Int) : Option Bool :=
  h.options.Level.map fun threshold => decide (threshold ≤ level)

/-- Modelled from the spec: `slogx.ConsolidateAttrs(h.attrs, h.activeGroup, r)`
(the `slogx` module is an external dependency, not in this repository).
Per spec §3/§4.5 it merges the handler's attribute sequence with the
record's own attributes — wrapped in the active group's namespace when one
is active — and resolves duplicate keys at every nesting level by keeping
the last occurrence of a left-to-right, outer-to-inner traversal. -/
def ConsolidateAttrs (attrs : List Attr) (activeGroup : String) (r : Record) : List Attr :=
  let recordPart := if activeGroup = "" then r.attrs else [Attr.group activeGroup r.attrs]
  consolidate (attrs ++ recordPart)

/-- Model of the private emission pipeline `handle` (handler.go:183-212):
consolidate, format (falling back to the default JSON formatter when none
is configured), POST, and interpret the response.  Returns `none` for a
nil error; a nil `HTTPClient` would panic in Go and is modelled by the
distinguished `GoError.nilPointer`. -/
def FluentBitHandler.handle (h : FluentBitHandler) (_ctx : Context) (r : Record) : Option GoError :=
  let attrs := ConsolidateAttrs h.attrs h.activeGroup r
  let formatted :=
    match h.options.RecordFormatter with
    | some f => f.formatRecord r.time r.level r.pc r.message attrs
    | none => DefaultJSONFormatter.formatRecord r.time r.level r.pc r.message attrs
  match formatted with
  | .error e => some e
  | .ok buf =>
    match h.options.HTTPClient with
    | none => some (.nilPointer "HTTPClient")
    | some client =>
      match client.post { url := h.options.URL, contentType := h.options.ContentType, body := buf } with
      | .transportErr e => some e
      | .response code =>
        if 400 ≤ code then some (.msg ("failed to write message - HTTP status code " ++ toString code))
        else none

/-- Instrumented copy of the emission pipeline that additionally counts the
number of `POST` requests it issues (used to state that no retry happens). -/
def FluentBitHandler.handleTrace (h : FluentBitHandler) (_ctx : Context) (r : Record) :
    Option GoError × Nat :=
  let attrs := ConsolidateAttrs h.attrs h.activeGroup r
  let formatted :=
    match h.options.RecordFormatter with
    | some f => f.formatRecord r.time r.level r.pc r.message attrs
    | none => DefaultJSONFormatter.formatRecord r.time r.level r.pc r.message attrs
  match formatted with
  | .error e => (some e, 0)
  | .ok buf =>
    match h.options.HTTPClient with
    | none => (some (.nilPointer "HTTPClient"), 0)
    | some client =>
      match client.post { url := h.options.URL, contentType := h.options.ContentType, body := buf } with
      | .transportErr e => (some e, 1)
      | .response code =>
        if 400 ≤ code then (some (.msg ("failed to write message - HTTP status code " ++ toString code)), 1)
        else (none, 1)

/-- Model of `Handle` (handler.go:127-138).  The Go receiver is a pointer
(`Handle` appends to `h.futures` in asynchronous mode), so the model
returns the error result together with the updated handler.  `async.Exec`
schedules one background run of the pipeline; its future carries the
result that run will produce. -/
def FluentBitHandler.Handle (h : FluentBitHandler) (ctx : Context) (r : Record) :
    Option GoError × FluentBitHandler :=
  let handlerCtx := h.options.AddToContext ctx
  if !h.options.EnableAsync then
    (h.handle handlerCtx r, h)
  else
    let future : Future := ⟨h.handle handlerCtx r⟩
    (none, { h with futures := h.futures ++ [some future] })

/-- Model of `Shutdown` (handler.go:141-148): awaits each non-nil recorded
future in order and returns nil.  The pure model records the sequence of
`Await` calls performed (first component) alongside the returned error
(second component). -/
def FluentBitHandler.Shutdown (h : FluentBitHandler) (_continueOnError : Bool) :
    List Future × Option GoError :=
  (h.futures.filterMap fun f => f, none)

/-- Model of `WithAttrs` (handler.go:151-165): copies the handler and either
appends the attributes directly (no active group) or appends them wrapped
in a single group entry named after the active group, keeping that group
active.  (The copied handler's `activeGroup` starts at the zero value `""`
and is only set in the second branch, as in the source.) -/
def FluentBitHandler.WithAttrs (h : FluentBitHandler) (attrs : List Attr) : FluentBitHandler :=
  let newHandler : FluentBitHandler :=
    { activeGroup := ""
      attrs := h.attrs
      futures := h.futures
      groups := h.groups
      options := h.options }
  if h.activeGroup = "" then
    { newHandler with attrs := newHandler.attrs ++ attrs }
  else
    { newHandler with
      attrs := newHandler.attrs ++ [Attr.group h.activeGroup attrs]
      activeGroup := h.activeGroup }

/-- Model of `WithGroup` (handler.go:168-180): copies the handler and, when
the name is non-empty, appends it to the group history and makes it the
active group.  (As in the source, the copy's `activeGroup` starts at the
zero value `""` and is not restored from the receiver when the name is
empty.) -/
def FluentBitHandler.WithGroup (h : FluentBitHandler) (name : String) : FluentBitHandler :=
  let newHandler : FluentBitHandler :=
    { activeGroup := ""
      attrs := h.attrs
      futures := h.futures
      groups := h.groups
      options := h.options }
  if name ≠ "" then
    { newHandler with groups := newHandler.groups ++ [name], activeGroup := name }
  else
    newHandler

/-- Go method-call semantics for a value receiver: the callee operates on a
copy of the receiver, so after the call the caller-side receiver is exactly
the value it held before.  The wrapper returns (receiver after the call,
method result) for `WithAttrs`. -/
def withAttrsCall (h : FluentBitHandler) (attrs : List Attr) :
    FluentBitHandler × FluentBitHandler :=
  (h, h.WithAttrs attrs)

/-- Go value-receiver call semantics for `WithGroup`: (receiver after the
call, method result). -/
def withGroupCall (h : FluentBitHandler) (name : String) :
    FluentBitHandler × FluentBitHandler :=
  (h, h.WithGroup name)

/-! ### Concrete fixtures for witnesses and counterexamples -/

/-- A concrete, fully backfilled handler (as produced by construction with
only a URL supplied). -/
def sampleHandler : FluentBitHandler :=
  { activeGroup := ""
    attrs := []
    futures := []
    groups := []
    options := { ContentType := "application/json"
                 EnableAsync := false
                 HTTPClient := some restyNew
                 Level := some LevelInfo
                 RecordFormatter := some DefaultJSONFormatter
                 URL := "http://localhost:9880" } }

/-- `sampleHandler` with the group `g` active. -/
def groupedHandler : FluentBitHandler :=
  { sampleHandler with activeGroup := "g", groups := ["g"] }

/-- `sampleHandler` with asynchronous dispatch enabled. -/
def asyncHandler : FluentBitHandler :=
  { sampleHandler with options := { sampleHandler.options with EnableAsync := true } }

/-- An empty concrete context. -/
def sampleCtx : Context := { fluentBitOptions := none }

/-- A concrete record with no attributes. -/
def sampleRecord : Record :=
  { time := 0, level := 0, pc := 0, message := "m", attrs := [] }

/-- A formatter stub that always fails with the given error. -/
def fmtFail (e : GoError) : BufferFormatter :=
  ⟨fun _ _ _ _ _ => .error e⟩

/-- A formatter stub that always produces the given buffer. -/
def fmtConst (buf : String) : BufferFormatter :=
  ⟨fun _ _ _ _ _ => .ok buf⟩

/-- A client stub whose every `POST` fails with a transport error. -/
def clientErr (e : GoError) : HTTPClient :=
  ⟨fun _ => .transportErr e⟩

/-- A client stub whose every `POST` yields the given status code. -/
def clientCode (n : Nat) : HTTPClient :=
  ⟨fun _ => .response n⟩

/-- A concrete handler around the given formatter and client stubs. -/
def mkStubHandler (f : BufferFormatter) (c : HTTPClient) : FluentBitHandler :=
  { activeGroup := ""
    attrs := []
    futures := []
    groups := []
    options := { ContentType := "application/json"
                 EnableAsync := false
                 HTTPClient := some c
                 Level := some LevelInfo
                 RecordFormatter := some f
                 URL := "http://localhost:9880" } }

/-- A concrete options value with a non-empty URL and every other field at
its zero value. -/
def zeroOptionsWithURL : FluentBitHandlerOptions :=
  { ContentType := ""
    EnableAsync := false
    HTTPClient := none
    Level := none
    RecordFormatter := none
    URL := "http://localhost:9880" }

/-- A concrete options value whose URL is empty. -/
def emptyURLOptions : FluentBitHandlerOptions :=
  { zeroOptionsWithURL with URL := "" }

/-- A concrete record carrying the single attribute `x = 1`. -/
def xRecord : Record :=
  { time := 0, level := 0, pc := 0, message := "m", attrs := [Attr.scalar "x" (.int 1)] }

/-! ### Lemmas about consolidation -/

/-- Consolidating a single attribute preserves its key. -/
theorem consolidateTop_key (a : Attr) : (consolidateTop a).key = a.key := by
  cases a <;> rfl

/-- Unfolding lemma for `consolidate` on a cons cell, uniform in the head's
shape. -/
theorem consolidate_cons (a : Attr) (rest : List Attr) :
    consolidate (a :: rest) =
      if rest.any (fun b => b.key = a.key) then consolidate rest
      else consolidateTop a :: consolidate rest := by
  cases a <;> simp [consolidate, consolidateTop, Attr.key]

/-- The last occurrence in a cons cell: last occurrence of the tail, or the
head as a fallback. -/
theorem attrFindLast_cons (k : String) (a : Attr) (rest : List Attr) :
    attrFindLast k (a :: rest) =
      (attrFindLast k rest).or (if a.key = k then some a else none) := by
  simp only [attrFindLast, List.reverse_cons, List.find?_append]
  by_cases hk : a.key = k
  · simp [hk, List.find?_cons]
  · simp [hk, List.find?_cons]

/-- A key has a last occurrence iff it occurs at all. -/
theorem attrFindLast_isSome_iff (k : String) (l : List Attr) :
    (attrFindLast k l).isSome ↔ l.any (fun b => b.key = k) = true := by
  simp [attrFindLast, List.any_eq_true]

/-- Last-write-wins lookup: looking a key up in the consolidated sequence
yields exactly the last occurrence of that key in the input (itself
consolidated one level down), for every key and every input. -/
theorem attrFind_consolidate (k : String) (l : List Attr) :
    attrFind k (consolidate l) = (attrFindLast k l).map consolidateTop := by
  induction l with
  | nil => simp [attrFind, attrFindLast, consolidate]
  | cons a rest ih =>
    rw [consolidate_cons, attrFindLast_cons]
    by_cases hany : rest.any (fun b => b.key = a.key) = true
    · rw [if_pos hany]
      by_cases hk : a.key = k
      · have hsome : (attrFindLast k rest).isSome := by
          rw [attrFindLast_isSome_iff]
          rw [hk] at hany
          exact hany
        obtain ⟨b, hb⟩ := Option.isSome_iff_exists.mp hsome
        rw [ih, hb]
        simp
      · rw [if_neg hk]
        simp only [Option.or_none]
        exact ih
    · rw [if_neg hany]
      by_cases hk : a.key = k
      · have hp : ((consolidateTop a).key = k) := by rw [consolidateTop_key]; exact hk
        have hnone : attrFindLast k rest = none := by
          rw [← Option.not_isSome_iff_eq_none, attrFindLast_isSome_iff]
          rw [hk] at hany
          exact hany
        rw [attrFind, List.find?_cons_of_pos _ (by simp [hp]), hnone, if_pos hk]
        simp
      · have hp : ¬ ((consolidateTop a).key = k) := by rw [consolidateTop_key]; exact hk
        rw [attrFind, List.find?_cons_of_neg _ (by simp [hp]), if_neg hk]
        simp only [Option.or_none]
        exact ih

/-! ### Claim theorems -/

/-- C4: for every handler, attribute list and group name, calling `WithAttrs`
or `WithGroup` leaves the receiver's own attribute sequence, group path and
active group structurally equal to their pre-call values.  Go value-receiver
methods operate on a copy of the receiver, which the call wrappers
`withAttrsCall` / `withGroupCall` make explicit: the first component is the
caller-side receiver after the call. -/
theorem C4_derivation_never_mutates_receiver (h : FluentBitHandler)
    (attrs : List Attr) (name : String) :
    (withAttrsCall h attrs).1.attrs = h.attrs ∧
      (withAttrsCall h attrs).1.groups = h.groups ∧
      (withAttrsCall h attrs).1.activeGroup = h.activeGroup ∧
      (withGroupCall h name).1.attrs = h.attrs ∧
      (withGroupCall h name).1.groups = h.groups ∧
      (withGroupCall h name).1.activeGroup = h.activeGroup :=
  ⟨rfl, rfl, rfl, rfl, rfl, rfl⟩

/-- C5: for every handler with a configured level threshold, `Enabled`
returns true iff the queried level is at least the threshold, and the
result depends only on the (immutable) configured threshold. -/
theorem C5_enabled_iff_at_least_threshold (h : FluentBitHandler) (L t : Int)
    (hlvl : h.options.Level = some t) :
    (h.Enabled L = some true ↔ t ≤ L) ∧
      (∀ h' : FluentBitHandler, h'.options.Level = h.options.Level →
        h'.Enabled L = h.Enabled L) := by
  constructor
  · simp [FluentBitHandler.Enabled, hlvl]
  · intro h' hh
    simp [FluentBitHandler.Enabled, hh]

/-- Witness for C5 at a concrete handler and level. -/
theorem C5_enabled_witness : sampleHandler.Enabled 1 = some true :=
  (C5_enabled_iff_at_least_threshold sampleHandler 1 0 rfl).1.mpr (by norm_num)

/-- C6: `WithAttrs` with no active group appends the attributes directly;
with an active group it appends one nested group entry named after that
group wrapping all of them, and the derived handler keeps that group
active. -/
theorem C6_withAttrs_group_wrapping (h : FluentBitHandler) (attrs : List Attr) :
    (h.activeGroup = "" →
      (h.WithAttrs attrs).attrs = h.attrs ++ attrs ∧
        (h.WithAttrs attrs).activeGroup = "") ∧
    (h.activeGroup ≠ "" →
      (h.WithAttrs attrs).attrs = h.attrs ++ [Attr.group h.activeGroup attrs] ∧
        (h.WithAttrs attrs).activeGroup = h.activeGroup) := by
  constructor <;> intro hg <;> simp [FluentBitHandler.WithAttrs, hg]

/-- Witness for C6 at concrete handlers, with and without an active group. -/
theorem C6_withAttrs_witness :
    ((sampleHandler.WithAttrs [Attr.scalar "x" (.int 1)]).attrs
        = sampleHandler.attrs ++ [Attr.scalar "x" (.int 1)]) ∧
      ((groupedHandler.WithAttrs [Attr.scalar "x" (.int 1)]).attrs
        = groupedHandler.attrs ++ [Attr.group groupedHandler.activeGroup [Attr.scalar "x" (.int 1)]]) :=
  ⟨((C6_withAttrs_group_wrapping sampleHandler [Attr.scalar "x" (.int 1)]).1 rfl).1,
   ((C6_withAttrs_group_wrapping groupedHandler [Attr.scalar "x" (.int 1)]).2 (by decide)).1⟩

/-- C2 counterexample: with a non-empty URL and all other fields zero,
construction succeeds but the returned handler's options do NOT carry a
backfilled default formatter — `RecordFormatter` stays nil (`isNone`); the
default formatter is only substituted later, at emission time. -/
theorem C2_formatter_not_backfilled :
    (NewFluentBitHandler zeroOptionsWithURL).toOption.map
      (fun h => h.options.RecordFormatter.isNone) = some true := rfl

/-- C2 (amended): `NewFluentBitHandler` fails iff the URL is empty; with a
non-empty URL and all other fields zero it succeeds and backfills the
`ContentType`, `HTTPClient` and `Level` defaults exactly, while
`RecordFormatter` is left nil (the default JSON formatter is applied at
emission time instead, see C10). -/
theorem C2_new_validation_and_defaults :
    (∀ opts : FluentBitHandlerOptions,
      (NewFluentBitHandler opts).toOption = none ↔ opts.URL = "") ∧
    (∀ u : String, u ≠ "" →
      NewFluentBitHandler { ContentType := "", EnableAsync := false, HTTPClient := none,
                            Level := none, RecordFormatter := none, URL := u } =
        .ok { activeGroup := ""
              attrs := []
              futures := []
              groups := []
              options := { ContentType := "application/json"
                           EnableAsync := false
                           HTTPClient := some restyNew
                           Level := some LevelInfo
                           RecordFormatter := none
                           URL := u } }) := by
  constructor
  · rintro ⟨ct, ea, hc, lv, rf, url⟩
    by_cases hu : url = ""
    · simp [NewFluentBitHandler, hu, Except.toOption]
    · by_cases hct : ct = "" <;> cases hc <;> cases lv <;>
        simp [NewFluentBitHandler, hu, hct, Except.toOption]
  · intro u hu
    unfold NewFluentBitHandler
    rw [if_neg hu]
    rfl

/-- Witness for C2 at concrete options values. -/
theorem C2_new_validation_witness :
    ((NewFluentBitHandler emptyURLOptions).toOption = none) ∧
      (NewFluentBitHandler zeroOptionsWithURL).toOption.isSome = true := by
  constructor
  · exact (C2_new_validation_and_defaults.1 emptyURLOptions).mpr rfl
  · have h := C2_new_validation_and_defaults.2 "http://localhost:9880" (by decide)
    unfold zeroOptionsWithURL
    rw [h]
    rfl

/-- C3 (code bug): `WithGroup("")` is not a no-op when a group is active.
On a handler whose active group is `"g"`, `WithGroup("")` returns a handler
whose active group has been reset to `""` (the copied struct's zero value
is never restored from the receiver), and a subsequent emission
consolidates a record's attributes differently: with the receiver the
record's `x` is wrapped inside group `g` (no top-level `x`), while with the
`WithGroup("")` derivative it stays at top level. -/
theorem C3_withGroup_empty_not_noop :
    ((groupedHandler.WithGroup "").activeGroup = "") ∧
      (groupedHandler.activeGroup = "g") ∧
      (attrFind "x" (ConsolidateAttrs groupedHandler.attrs groupedHandler.activeGroup xRecord)
        = none) ∧
      (attrFind "x" (ConsolidateAttrs (groupedHandler.WithGroup "").attrs
          ((groupedHandler.WithGroup "").activeGroup) xRecord)
        = some (Attr.scalar "x" (.int 1))) := by
  refine ⟨rfl, rfl, ?_, ?_⟩ <;>
    simp [groupedHandler, sampleHandler, FluentBitHandler.WithGroup, ConsolidateAttrs, xRecord,
      consolidate, consolidate_cons, consolidateTop, attrFind, Attr.key]

/-- C1: for every handler attribute sequence, active group and record,
looking any key up in the consolidated attribute tree built by the
emission pipeline yields exactly the last occurrence of that key in the
left-to-right traversal of the handler attributes followed by the
(group-wrapped) record attributes, consolidated recursively at deeper
levels; in particular, with handler attribute `a = 1`, then
`WithAttrs(a = 2)`, then a record carrying `a = 3`, the consolidated tree
maps `a` to `3`. -/
theorem C1_consolidation_last_write_wins :
    (∀ (attrs : List Attr) (g : String) (r : Record) (k : String),
      attrFind k (ConsolidateAttrs attrs g r) =
        (attrFindLast k
            (attrs ++ (if g = "" then r.attrs else [Attr.group g r.attrs]))).map
          consolidateTop) ∧
    (attrFind "a"
        (ConsolidateAttrs
          (({ sampleHandler with
              attrs := [Attr.scalar "a" (.int 1)] }).WithAttrs [Attr.scalar "a" (.int 2)]).attrs
          (({ sampleHandler with
              attrs := [Attr.scalar "a" (.int 1)] }).WithAttrs [Attr.scalar "a" (.int 2)]).activeGroup
          { time := 0, level := 0, pc := 0, message := "m",
            attrs := [Attr.scalar "a" (.int 3)] })
      = some (Attr.scalar "a" (.int 3))) := by
  constructor
  · intro attrs g r k
    exact attrFind_consolidate k _
  · simp [FluentBitHandler.WithAttrs, sampleHandler, ConsolidateAttrs, consolidate,
      consolidate_cons, consolidateTop, attrFind, Attr.key]

/-- C7: with asynchronous mode disabled, `Handle` returns exactly the
result of running the emission pipeline synchronously (and leaves the
handler unchanged); with asynchronous mode enabled, it returns nil
immediately and appends exactly one future — carrying the scheduled
pipeline run's result — to the handler's future list, changing nothing
else. -/
theorem C7_handle_sync_vs_async (h : FluentBitHandler) (ctx : Context) (r : Record) :
    (h.options.EnableAsync = false →
      h.Handle ctx r = (h.handle (h.options.AddToContext ctx) r, h)) ∧
    (h.options.EnableAsync = true →
      (h.Handle ctx r).1 = none ∧
        (h.Handle ctx r).2 =
          { h with futures :=
              h.futures ++ [some ⟨h.handle (h.options.AddToContext ctx) r⟩] }) := by
  constructor <;> intro ha <;> simp [FluentBitHandler.Handle, ha]

/-- Witness for C7 at a concrete synchronous and a concrete asynchronous
handler. -/
theorem C7_handle_witness :
    (sampleHandler.Handle sampleCtx sampleRecord =
      (sampleHandler.handle (sampleHandler.options.AddToContext sampleCtx) sampleRecord,
        sampleHandler)) ∧
      ((asyncHandler.Handle sampleCtx sampleRecord).1 = none) :=
  ⟨(C7_handle_sync_vs_async sampleHandler sampleCtx sampleRecord).1 rfl,
   ((C7_handle_sync_vs_async asyncHandler sampleCtx sampleRecord).2 rfl).1⟩

/-- C8: in the emission pipeline, a formatter error is returned as-is; a
transport-level error from the POST is returned as-is; a response with
status code at least 400 yields the delivery error carrying that code;
any response below 400 yields nil; and the pipeline issues at most one
POST (no retry in any branch). -/
theorem C8_pipeline_error_branches (h : FluentBitHandler) (ctx : Context) (r : Record)
    (f : BufferFormatter) (c : HTTPClient)
    (hf : h.options.RecordFormatter = some f) (hc : h.options.HTTPClient = some c) :
    (∀ e, f.formatRecord r.time r.level r.pc r.message
        (ConsolidateAttrs h.attrs h.activeGroup r) = .error e →
      h.handle ctx r = some e) ∧
    (∀ buf e, f.formatRecord r.time r.level r.pc r.message
        (ConsolidateAttrs h.attrs h.activeGroup r) = .ok buf →
      c.post { url := h.options.URL, contentType := h.options.ContentType, body := buf }
          = .transportErr e →
      h.handle ctx r = some e) ∧
    (∀ buf code, f.formatRecord r.time r.level r.pc r.message
        (ConsolidateAttrs h.attrs h.activeGroup r) = .ok buf →
      c.post { url := h.options.URL, contentType := h.options.ContentType, body := buf }
          = .response code →
      400 ≤ code →
      h.handle ctx r =
        some (.msg ("failed to write message - HTTP status code " ++ toString code))) ∧
    (∀ buf code, f.formatRecord r.time r.level r.pc r.message
        (ConsolidateAttrs h.attrs h.activeGroup r) = .ok buf →
      c.post { url := h.options.URL, contentType := h.options.ContentType, body := buf }
          = .response code →
      code < 400 →
      h.handle ctx r = none) ∧
    ((h.handleTrace ctx r).2 ≤ 1) := by
  refine ⟨?_, ?_, ?_, ?_, ?_⟩
  · intro e he
    simp [FluentBitHandler.handle, hf, he]
  · intro buf e hfmt hpost
    simp [FluentBitHandler.handle, hf, hc, hfmt, hpost]
  · intro buf code hfmt hpost hcode
    simp [FluentBitHandler.handle, hf, hc, hfmt, hpost, hcode]
  · intro buf code hfmt hpost hcode
    simp [FluentBitHandler.handle, hf, hc, hfmt, hpost, Nat.not_le.mpr hcode]
  · simp only [FluentBitHandler.handleTrace, hf, hc]
    cases hfmt : f.formatRecord r.time r.level r.pc r.message
        (ConsolidateAttrs h.attrs h.activeGroup r) with
    | error e => simp
    | ok buf =>
      cases hpost : c.post ⟨h.options.URL, h.options.ContentType, buf⟩ with
      | transportErr e => simp [hpost]
      | response code =>
        by_cases hcode : 400 ≤ code <;> simp [hpost, hcode]

/-- Witness for C8: the four branches evaluated at concrete stub
collaborators. -/
theorem C8_pipeline_witness :
    ((mkStubHandler (fmtFail (.msg "fmt")) (clientErr (.msg "net"))).handle sampleCtx sampleRecord
        = some (.msg "fmt")) ∧
      ((mkStubHandler (fmtConst "B") (clientErr (.msg "net"))).handle sampleCtx sampleRecord
        = some (.msg "net")) ∧
      ((mkStubHandler (fmtConst "B") (clientCode 500)).handle sampleCtx sampleRecord
        = some (.msg ("failed to write message - HTTP status code " ++ toString 500))) ∧
      ((mkStubHandler (fmtConst "B") (clientCode 200)).handle sampleCtx sampleRecord
        = none) :=
  ⟨(C8_pipeline_error_branches (mkStubHandler (fmtFail (.msg "fmt")) (clientErr (.msg "net")))
      sampleCtx sampleRecord _ _ rfl rfl).1 (.msg "fmt") rfl,
   (C8_pipeline_error_branches (mkStubHandler (fmtConst "B") (clientErr (.msg "net")))
      sampleCtx sampleRecord _ _ rfl rfl).2.1 "B" (.msg "net") rfl rfl,
   (C8_pipeline_error_branches (mkStubHandler (fmtConst "B") (clientCode 500))
      sampleCtx sampleRecord _ _ rfl rfl).2.2.1 "B" 500 rfl rfl (by norm_num),
   (C8_pipeline_error_branches (mkStubHandler (fmtConst "B") (clientCode 200))
      sampleCtx sampleRecord _ _ rfl rfl).2.2.2.1 "B" 200 rfl rfl (by norm_num)⟩

/-- C9: `Shutdown` awaits every recorded (non-nil) future in the order it
was recorded and always returns nil, for either value of
`continueOnError`; in particular after two asynchronous `Handle` calls the
await sequence is the previously recorded futures followed by the two new
ones, in dispatch order. -/
theorem C9_shutdown_drains_in_order (h : FluentBitHandler) (ctx : Context)
    (r1 r2 : Record) (b b' : Bool) (ha : h.options.EnableAsync = true) :
    ((h.Shutdown b).2 = none) ∧
      (h.Shutdown b = h.Shutdown b') ∧
      ((h.Shutdown b).1 = h.futures.filterMap (fun f => f)) ∧
      ((((h.Handle ctx r1).2.Handle ctx r2).2.Shutdown b).1 =
        h.futures.filterMap (fun f => f) ++
          [⟨h.handle (h.options.AddToContext ctx) r1⟩,
           ⟨(h.Handle ctx r1).2.handle ((h.Handle ctx r1).2.options.AddToContext ctx) r2⟩]) := by
  refine ⟨rfl, rfl, rfl, ?_⟩
  simp [FluentBitHandler.Handle, FluentBitHandler.Shutdown, ha]

/-- Witness for C9 at a concrete asynchronous handler. -/
theorem C9_shutdown_witness :
    ((asyncHandler.Shutdown false).2 = none) ∧
      ((((asyncHandler.Handle sampleCtx sampleRecord).2.Handle sampleCtx sampleRecord).2.Shutdown
          true).1 =
        asyncHandler.futures.filterMap (fun f => f) ++
          [⟨asyncHandler.handle (asyncHandler.options.AddToContext sampleCtx) sampleRecord⟩,
           ⟨(asyncHandler.Handle sampleCtx sampleRecord).2.handle
              ((asyncHandler.Handle sampleCtx sampleRecord).2.options.AddToContext sampleCtx)
              sampleRecord⟩]) :=
  ⟨(C9_shutdown_drains_in_order asyncHandler sampleCtx sampleRecord sampleRecord false false
      rfl).1,
   (C9_shutdown_drains_in_order asyncHandler sampleCtx sampleRecord sampleRecord true true
      rfl).2.2.2⟩

/-- C10: with a nil `RecordFormatter`, the emission pipeline does not fail
for lack of a formatter: it behaves exactly as if the default JSON
formatter had been configured. -/
theorem C10_nil_formatter_default_fallback (h : FluentBitHandler) (ctx : Context) (r : Record)
    (hf : h.options.RecordFormatter = none) :
    h.handle ctx r =
      ({ h with options :=
          { h.options with RecordFormatter := some DefaultJSONFormatter } }).handle ctx r := by
  simp [FluentBitHandler.handle, hf]

/-- Witness for C10 at a concrete handler with a nil formatter. -/
theorem C10_nil_formatter_witness :
    ({ sampleHandler with options :=
        { sampleHandler.options with RecordFormatter := none } } : FluentBitHandler).handle
        sampleCtx sampleRecord =
      ({ sampleHandler with options :=
          { sampleHandler.options with
              RecordFormatter := some DefaultJSONFormatter } } : FluentBitHandler).handle
        sampleCtx sampleRecord :=
  C10_nil_formatter_default_fallback
    { sampleHandler with options := { sampleHandler.options with RecordFormatter := none } }
    sampleCtx sampleRecord rfl

end SlogxFluentBit
